import Mathlib

/-!
Verification of the light-shaping manipulator core (LightTool / SpotLightTool).

This file shallowly embeds the relevant functions of
`src/GafferSceneUI/LightTool.cpp` and `src/GafferSceneUI/SpotLightTool.cpp`
in Lean. `float` values are modelled as exact rationals; the C++ arithmetic
in the properties considered here (multiplication, division, min/max
clamping) is exact on the inputs of interest, so the rational model tracks
the source faithfully for the algebraic claims. Angles obtained through
`sqrt`/`atan2` are irrational in general and are taken as parameters where
they occur; the surrounding branch structure is modelled exactly.
-/

namespace LightToolSpec

/-- The `penumbraType` metadata of a spot light: one of the interned strings
`"inset"`, `"outset"`, `"absolute"` (`g_insetPenumbraType` etc. in
`LightTool.cpp`); the handle stores it as an optional, `none` meaning the
metadata is absent. -/
inductive PenumbraType
  | inset
  | outset
  | absolute
  deriving DecidableEq

/-- `SpotLightHandle::HandleType`: the role of a spot-light handle. -/
inductive SpotHandleType
  | Cone
  | Penumbra
  deriving DecidableEq

/-- `m_angleMultiplier` as set in `SpotLightHandle::update`: 2 when the
`coneAngleType` metadata reads `"half"`, 1 otherwise. -/
def angleMultiplier (coneAngleType : Option String) : ℚ :=
  if coneAngleType = some "half" then 2 else 1

/-- `SpotLightHandle::handleAngles`: convert plug-space angles to
handle-space angles. The cone plug angle is halved and scaled by the
multiplier; a penumbra plug angle is passed through unchanged unless the
penumbra type is `absolute`, in which case it is halved. -/
def handleAngles (penumbraType : Option PenumbraType) (mult : ℚ)
    (coneAngle : ℚ) (penumbraAngle : Option ℚ) : ℚ × Option ℚ :=
  ( coneAngle * (1/2) * mult,
    penumbraAngle.map fun p =>
      if penumbraType ≠ some PenumbraType.absolute then p else p * (1/2) )

/-- `SpotLightHandle::conePlugAngle`: convert a handle-space cone angle back
to plug space. -/
def conePlugAngle (mult : ℚ) (a : ℚ) : ℚ :=
  a * 2 / mult

/-- `SpotLightHandle::penumbraPlugAngle`: convert a handle-space penumbra
angle back to plug space. -/
def penumbraPlugAngle (penumbraType : Option PenumbraType) (a : ℚ) : ℚ :=
  if penumbraType ≠ some PenumbraType.absolute then a else a * 2

/-- `SpotLightHandle::clampHandleAngle`. The candidate is clamped to
[0, 90] with `std::clamp` and then clamped against the coupled angle
according to the handle role and the penumbra type. The result is `none`
exactly when the C++ would call `std::optional::value()` on an empty
optional (the cone role with an outset penumbra type but no captured
penumbra angle), which throws. -/
def clampHandleAngle (ht : SpotHandleType) (pt : Option PenumbraType)
    (angle origCone : ℚ) (origPen : Option ℚ) : Option ℚ :=
  let result := min (max angle 0) 90
  match ht with
  | SpotHandleType.Cone =>
    if origPen.isSome ∧ (pt = none ∨ pt = some PenumbraType.inset) then
      some (max result (origPen.getD 0))
    else if pt = some PenumbraType.outset then
      origPen.map fun p => min result (90 - p)
    else
      some result
  | SpotHandleType.Penumbra =>
    if pt = none ∨ pt = some PenumbraType.inset then
      some (min result origCone)
    else if pt = some PenumbraType.outset then
      some (min result (90 - origCone))
    else
      some result

/-- `SpotLightHandle::DragStartData`, the per-path snapshot captured at drag
begin by `addDragInspection`. A snapshot always holds a cone inspection
(`addDragInspection` returns early otherwise), modelled by its editable flag
and the cone angle already converted to handle space; the penumbra
inspection and its handle-space angle are present together or not at all
(the angle is extracted from the inspection value, with an assert that the
value exists). -/
structure SpotSnapshot where
  coneEditable : Bool
  origCone : ℚ
  pen : Option (Bool × ℚ)
  deriving DecidableEq

/-- `SpotLightHandle::allInspectionsEnabled`: every captured snapshot must
have an editable inspection for the dragged parameter (a missing inspection
counts as not editable). -/
def spotAllInspectionsEnabled (ht : SpotHandleType)
    (snaps : List SpotSnapshot) : Bool :=
  snaps.all fun s =>
    match ht with
    | SpotHandleType.Cone => s.coneEditable
    | SpotHandleType.Penumbra => (s.pen.map Prod.fst).getD false

/-- A gadget-space vector, for the ray of a drag event. -/
structure Vec3 where
  x : ℚ
  y : ℚ
  z : ℚ
  deriving DecidableEq

/-- The Imath dot product `a ^ b` used by `sphereSpokeClickAngle`. -/
def dot (a b : Vec3) : ℚ :=
  a.x * b.x + a.y * b.y + a.z * b.z

/-- The discriminant computed by `sphereSpokeClickAngle` for the
intersection of the event line with the sphere of radius `radius` centred
at the gadget origin: B = 2 (dir . pos), C = pos . pos - radius^2,
discriminant = B^2 - 4 C (the quadratic coefficient A is 1). The C++
returns false without producing an angle when it is negative. -/
def sphereSpokeDiscriminant (pos dir : Vec3) (radius : ℚ) : ℚ :=
  let b := 2 * dot dir pos
  let c := dot pos pos - radius * radius
  b * b - 4 * c

/-- The source of the candidate handle angle in
`SpotLightHandle::handleDragMove`. The C++ computes the angle itself with
`sqrt`/`atan2`, which is irrational in general, so the produced angle is a
parameter of each constructor here; the branch structure - in particular the
early return of `sphereSpokeClickAngle` on a negative discriminant - is
modelled exactly. `lookThrough` is the looking-through-the-light branch,
`linearDrag` the sphere-spoke intersection branch taken when not looking
through and the angular drag degenerates to a linear one (its `rootAngle`
stands for the `atan2` of the intersection root the C++ selects), and
`angularDrag` the plain angular drag branch. -/
inductive SpotDragKind
  | lookThrough (newAngle : ℚ)
  | linearDrag (pos dir : Vec3) (rootAngle : ℚ)
  | angularDrag (newAngle : ℚ)
  deriving DecidableEq

/-- The per-snapshot body of the write loop in
`SpotLightHandle::handleDragMove`: apply the shared delta to the snapshot
start angle for the dragged role, re-clamp with the snapshot original
angles, and convert back to plug space. `none` models the exceptions the
C++ can raise there (an empty optional penumbra angle). The returned value
is what `setValueOrAddKey` writes to the snapshot plug. -/
def spotSnapshotWrite (ht : SpotHandleType) (pt : Option PenumbraType)
    (mult : ℚ) (delta : ℚ) (s : SpotSnapshot) : Option ℚ :=
  match ht with
  | SpotHandleType.Cone =>
    (clampHandleAngle SpotHandleType.Cone pt (s.origCone + delta) s.origCone
      (s.pen.map Prod.snd)).map (conePlugAngle mult)
  | SpotHandleType.Penumbra =>
    (s.pen.map Prod.snd).bind fun p0 =>
      (clampHandleAngle SpotHandleType.Penumbra pt (p0 + delta) s.origCone
        (s.pen.map Prod.snd)).map (penumbraPlugAngle pt)

/-- The drag-start angle of the dragged handle for its role, used as the
base of the delta in `SpotLightHandle::handleDragMove`: the cone handle
angle for the cone role, and `originalPenumbraHandleAngle.value()` for the
penumbra role (`none` when that optional is empty and the C++ throws). -/
def spotDragStartAngle (ht : SpotHandleType) (s : SpotSnapshot) : Option ℚ :=
  match ht with
  | SpotHandleType.Cone => some s.origCone
  | SpotHandleType.Penumbra => s.pen.map Prod.snd

/-- `SpotLightHandle::handleDragMove`. Returns the consumed flag together
with the ordered list of plug-space values written (one per captured
snapshot); the list is `none` when the C++ would raise before finishing the
loop. `dragStart` is `m_dragStartData` (the snapshot of the dragged handle
captured in `dragBegin`) and `arcRadius` is `m_arcRadius`. -/
def spotHandleDragMove (ht : SpotHandleType) (pt : Option PenumbraType)
    (mult arcRadius : ℚ) (kind : SpotDragKind) (dragStart : SpotSnapshot)
    (snaps : List SpotSnapshot) : Bool × Option (List ℚ) :=
  if snaps.isEmpty ∨ spotAllInspectionsEnabled ht snaps = false then
    (true, some [])
  else
    let newAngle? : Option ℚ :=
      match kind with
      | SpotDragKind.lookThrough a => some a
      | SpotDragKind.linearDrag pos dir rootAngle =>
        if sphereSpokeDiscriminant pos dir arcRadius < 0 then none
        else some rootAngle
      | SpotDragKind.angularDrag a => some a
    match newAngle? with
    | none => (true, some [])
    | some newAngle =>
      let writes : Option (List ℚ) := do
        let clamped ← clampHandleAngle ht pt newAngle dragStart.origCone
          (dragStart.pen.map Prod.snd)
        let start ← spotDragStartAngle ht dragStart
        snaps.mapM (spotSnapshotWrite ht pt mult (clamped - start))
      (true, writes)

/-- `WidthHeightHandle::InspectionInfo` as captured into `m_inspections` by
`addDragInspection`, which pushes only when both inspections are non-null;
each inspection is modelled by its editable flag and float value. -/
structure WHSnapshot where
  widthEditable : Bool
  originalWidth : ℚ
  heightEditable : Bool
  originalHeight : ℚ
  deriving DecidableEq

/-- The guard `v == 0 ? 1 : v` applied to original dimensions in
`WidthHeightHandle::handleDragMove`. -/
def nonZero (v : ℚ) : ℚ :=
  if v = 0 then 1 else v

/-- The modifier-key state of a drag event. -/
structure Modifiers where
  shift : Bool
  control : Bool
  alt : Bool
  deriving DecidableEq

/-- `g_quadLightConstrainAspectRatioKey = ModifiableEvent::Modifiers::Control`;
the aspect-ratio lock triggers when `event.modifiers` equals this value. -/
def controlModifier : Modifiers :=
  { shift := false, control := true, alt := false }

/-- An event with no modifier key held. -/
def noModifiers : Modifiers :=
  { shift := false, control := false, alt := false }

/-- `WidthHeightHandle::allInspectionsEnabled`: every captured snapshot has an
editable inspection for each dimension the handle edits. -/
def whAllInspectionsEnabled (hasW hasH : Bool) (snaps : List WHSnapshot) :
    Bool :=
  snaps.all fun s =>
    (!hasW || s.widthEditable) && (!hasH || s.heightEditable)

/-- `WidthHeightHandle::handleDragMove`. `hasW`/`hasH` are the Width/Height
bits of `m_handleType`, `dragStart` is `m_dragStartInfo`, `dx`/`dy` the drag
position minus the start position from the drag primitive (the component a
linear drag does not produce is unused, its multiplier staying at 1), and
`sx`/`sy` are `m_scale`. Returns the consumed flag and, per captured
snapshot, the width and height values passed to `setValueOrAddKey`
(`none` where no write happens). -/
def whHandleDragMove (hasW hasH : Bool) (mods : Modifiers)
    (dragStart : WHSnapshot) (dx dy sx sy : ℚ)
    (snaps : List WHSnapshot) : Bool × List (Option ℚ × Option ℚ) :=
  if snaps.isEmpty = true ∨ whAllInspectionsEnabled hasW hasH snaps = false
  then
    (true, [])
  else
    let nzW := nonZero dragStart.originalWidth
    let nzH := nonZero dragStart.originalHeight
    let xMult0 : ℚ := if hasW = true then dx * 2 / (nzW * sx) + 1 else 1
    let yMult0 : ℚ := if hasH = true then dy * 2 / (nzH * sy) + 1 else 1
    let xMult1 : ℚ :=
      if mods = controlModifier ∧ hasW = true ∧ hasH = true then
        if dragStart.originalWidth > dragStart.originalHeight then xMult0
        else yMult0
      else xMult0
    let yMult1 : ℚ :=
      if mods = controlModifier ∧ hasW = true ∧ hasH = true then
        if dragStart.originalWidth > dragStart.originalHeight then xMult0
        else yMult0
      else yMult0
    let xMult := max xMult1 0
    let yMult := max yMult1 0
    (true, snaps.map fun s =>
      ( if hasW = true ∧ s.widthEditable = true then
          some (nonZero s.originalWidth * xMult)
        else none,
        if hasH = true ∧ s.heightEditable = true then
          some (nonZero s.originalHeight * yMult)
        else none ))

/-- The plugs distinguished by `LightTool::plugDirtied`: the tool active
plug, the scene childNames plug, the view editScope plug (the branch that
emits `selectionChanged`), the scene transform plug, the two viewer scale
plugs and the scene attributes plug; `other` stands for any other plug. -/
inductive LightToolPlug
  | active
  | sceneChildNames
  | viewEditScope
  | sceneTransform
  | visualiserScale
  | frustumScale
  | sceneAttributes
  | other
  deriving DecidableEq

/-- The `LightTool` state observable by the claims: the `m_dragging` flag,
the three dirty flags, and the selection stored in the view context (which
`LightTool::selection()` re-reads on every call through
`ContextAlgo::getSelectedPaths`), abstracted to a number. -/
structure LightToolState where
  dragging : Bool
  handleInspectionsDirty : Bool
  handleTransformsDirty : Bool
  priorityPathsDirty : Bool
  contextSelection : ℕ
  deriving DecidableEq

/-- `LightTool::selection()`: reads the selected paths from the view
context. -/
def lightToolSelection (s : LightToolState) : ℕ :=
  s.contextSelection

/-- A changed context variable, abstracted by the three predicates
`LightTool::contextChanged` applies to its name: the two `ContextAlgo`
signal predicates and whether the name carries the `"ui:"` prefix tested
with `boost::starts_with`. -/
structure ContextVar where
  affectsSelectedPaths : Bool
  affectsLastSelectedPath : Bool
  uiPrefixed : Bool
  deriving DecidableEq

/-- The filter in `LightTool::contextChanged`: the handler reacts when the
changed context variable affects the selected paths, affects the last
selected path, or is not ui-prefixed. -/
def contextChangeTriggers (v : ContextVar) : Bool :=
  v.affectsSelectedPaths || v.affectsLastSelectedPath || !v.uiPrefixed

/-- `LightTool::contextChanged`, processing a change of the context
variable `v`; the context itself (here its selection value, `newSel`)
has already changed when the handler runs. Returns the new state and
whether `selectionChanged` was emitted. -/
def lightToolContextChanged (s : LightToolState) (v : ContextVar)
    (newSel : ℕ) : LightToolState × Bool :=
  let s0 := { s with contextSelection := newSel }
  if contextChangeTriggers v then
    ( { s0 with handleInspectionsDirty := true,
                handleTransformsDirty := true,
                priorityPathsDirty := true },
      true )
  else
    (s0, false)

/-- `LightTool::plugDirtied`. Returns the new state and whether
`selectionChanged` was emitted (the emission is guarded by `m_dragging`;
the dirty-flag updates are not). -/
def lightToolPlugDirtied (s : LightToolState) (p : LightToolPlug) :
    LightToolState × Bool :=
  let fires := p = LightToolPlug.active ∨ p = LightToolPlug.sceneChildNames ∨
    p = LightToolPlug.viewEditScope
  let emitted := if fires ∧ s.dragging = false then true else false
  let s1 := if fires then
    { s with handleInspectionsDirty := true, priorityPathsDirty := true }
    else s
  let s2 := if p = LightToolPlug.sceneTransform then
    { s1 with handleTransformsDirty := true } else s1
  let s3 := if p = LightToolPlug.visualiserScale ∨
      p = LightToolPlug.frustumScale then
    { s2 with handleInspectionsDirty := true } else s2
  let s4 := if p = LightToolPlug.sceneAttributes then
    { s3 with handleInspectionsDirty := true,
              handleTransformsDirty := true } else s3
  (s4, emitted)

/-- An event observed by the tool while a drag is in progress. -/
inductive LightToolEvent
  | plugDirtied (p : LightToolPlug)
  | contextChanged (v : ContextVar) (newSel : ℕ)
  deriving DecidableEq

/-- Process one event. -/
def lightToolProcessEvent (s : LightToolState) (e : LightToolEvent) :
    LightToolState × Bool :=
  match e with
  | LightToolEvent.plugDirtied p => lightToolPlugDirtied s p
  | LightToolEvent.contextChanged v newSel =>
    lightToolContextChanged s v newSel

/-- Process a sequence of events, counting `selectionChanged` emissions. -/
def lightToolProcessEvents (s : LightToolState) :
    List LightToolEvent → LightToolState × ℕ
  | [] => (s, 0)
  | e :: rest =>
    let r := lightToolProcessEvent s e
    let rr := lightToolProcessEvents r.1 rest
    (rr.1, (if r.2 then 1 else 0) + rr.2)

/-- A drag-in-progress tool state used by the C6 counterexample. -/
def draggingState : LightToolState :=
  { dragging := true, handleInspectionsDirty := false,
    handleTransformsDirty := false, priorityPathsDirty := false,
    contextSelection := 0 }

/-- The abstraction of a context variable such as the animation frame: not
ui-prefixed and affecting neither selection predicate, so the filter in
`LightTool::contextChanged` passes. -/
def frameVar : ContextVar :=
  { affectsSelectedPaths := false, affectsLastSelectedPath := false,
    uiPrefixed := false }

/-- An item of `SpotLightTool::m_selection`: the inspection for one
selected path, `none` when `spotLightParameter` found no registered spot
light there, otherwise its `editable()` flag. -/
abbrev SelectionItem := Option Bool

/-- `SpotLightTool::selectionEditable`: false on an empty selection;
otherwise every item must have an inspection and every inspection must be
applicable (`Angle::canApply`, which is `editable()` and false for a null
inspection). -/
def selectionEditable (sel : List SelectionItem) : Bool :=
  if sel.isEmpty then false
  else sel.all fun i =>
    match i with
    | some e => e
    | none => false

/-- `SpotLightTool::handleTransform`: throws when the selection is not
editable, otherwise returns the handle transform `t` (the transform type is
abstract here). -/
def handleTransform {α : Type} (sel : List SelectionItem) (t : α) :
    Except String α :=
  if selectionEditable sel = false then
    Except.error "Selection not editable"
  else
    Except.ok t

/-- The editability condition exactly as the claim words it: the selection
is non-empty, every item has a non-null inspection, and every inspection is
editable. -/
def SelectionEditableSpec (sel : List SelectionItem) : Prop :=
  sel ≠ [] ∧ ∀ i ∈ sel, ∃ e, i = some e ∧ e = true

/-- `g_warningTipCount`, the tooltip warning budget. -/
def g_warningTipCount : ℕ := 3

/-- The join performed by the warning loop in `drawSelectionTips`: each tip
is appended, followed by a newline for all but the last. -/
def joinTips : List String → String
  | [] => ""
  | [t] => t
  | t :: rest => t ++ "\n" ++ joinTips rest

/-- The warning text built by `drawSelectionTips`: the first
`g_warningTipCount` tips joined with newlines; when there is exactly one
more tip than the budget it is printed in full (the source comments that it
may as well print the real warning instead of a mysterious "and 1 more");
when there are more than that, an "and K more" line follows with
K = size - g_warningTipCount. -/
def warningInfoText (warningTips : List String) : String :=
  let warningSize := warningTips.length
  let base := joinTips (warningTips.take g_warningTipCount)
  let s1 :=
    if warningSize = g_warningTipCount + 1 then
      base ++ "\n" ++ warningTips.getD g_warningTipCount ""
    else base
  if warningSize > g_warningTipCount + 1 then
    s1 ++ "\n" ++ "and " ++ toString (warningSize - g_warningTipCount) ++
      " more"
  else s1

/-- C1: for every plug-space angle `a` and every light configuration
(cone-full, cone-half, penumbra-inset, penumbra-outset, penumbra-absolute),
converting `a` to handle space with `handleAngles` and back with
`conePlugAngle` (cone angles) or `penumbraPlugAngle` (penumbra angles)
returns exactly `a`. -/
theorem C1_spot_angle_roundtrip (a : ℚ) (coneAngleType : Option String)
    (pt : Option PenumbraType) :
    conePlugAngle (angleMultiplier coneAngleType)
      (handleAngles pt (angleMultiplier coneAngleType) a none).1 = a ∧
    (handleAngles pt (angleMultiplier coneAngleType) 0 (some a)).2.map
      (penumbraPlugAngle pt) = some a := by
  constructor
  · unfold conePlugAngle handleAngles angleMultiplier
    by_cases h : coneAngleType = some "half" <;> simp [h]
  · unfold handleAngles penumbraPlugAngle
    by_cases h : pt = some PenumbraType.absolute <;> simp [h]

/-- C2: given original angles in [0, 90], `clampHandleAngle` returns a value
in [0, 90] satisfying the coupling rule for the handle role and penumbra
type: Cone with inset/absent penumbra type is at least the penumbra angle,
Cone with outset type is at most 90 minus the penumbra angle, Penumbra with
inset/absent type is at most the cone angle, Penumbra with outset type is at
most 90 minus the cone angle, and with an absolute type no coupling is
applied. -/
theorem C2_clamp_handle_angle_spec (ht : SpotHandleType)
    (pt : Option PenumbraType) (angle origCone : ℚ) (origPen : Option ℚ)
    (r : ℚ)
    (hc0 : 0 ≤ origCone) (hc90 : origCone ≤ 90)
    (hp : ∀ p, origPen = some p → 0 ≤ p ∧ p ≤ 90)
    (hr : clampHandleAngle ht pt angle origCone origPen = some r) :
    (0 ≤ r ∧ r ≤ 90) ∧
    (ht = SpotHandleType.Cone → ∀ p, origPen = some p →
      ((pt = none ∨ pt = some PenumbraType.inset) → p ≤ r) ∧
      (pt = some PenumbraType.outset → r ≤ 90 - p)) ∧
    (ht = SpotHandleType.Penumbra →
      ((pt = none ∨ pt = some PenumbraType.inset) → r ≤ origCone) ∧
      (pt = some PenumbraType.outset → r ≤ 90 - origCone)) ∧
    (pt = some PenumbraType.absolute → r = min (max angle 0) 90) := by
  have h0 : (0:ℚ) ≤ min (max angle 0) 90 :=
    le_min (le_max_right angle 0) (by norm_num)
  have h90 : min (max angle 0) 90 ≤ 90 := min_le_right _ _
  cases ht
  case Cone =>
    simp only [clampHandleAngle] at hr
    split_ifs at hr with h1 h2
    · rcases origPen with _ | p
      · simp at h1
      · obtain ⟨hp0, hp90⟩ := hp p rfl
        simp only [Option.getD_some, Option.some.injEq] at hr
        subst hr
        refine ⟨⟨le_trans h0 (le_max_left _ _), max_le h90 hp90⟩, ?_, ?_, ?_⟩
        · intro _ q hq
          injection hq with hq
          subst hq
          refine ⟨fun _ => le_max_right _ _, fun hout => ?_⟩
          rcases h1.2 with h | h <;> rw [h] at hout <;> simp at hout
        · intro h
          simp at h
        · intro habs
          rcases h1.2 with h | h <;> rw [h] at habs <;> simp at habs
    · rcases origPen with _ | p
      · simp at hr
      · obtain ⟨hp0, hp90⟩ := hp p rfl
        simp only [Option.map_some', Option.some.injEq] at hr
        subst hr
        subst h2
        refine ⟨⟨le_min h0 (by linarith), le_trans (min_le_left _ _) h90⟩,
          ?_, ?_, ?_⟩
        · intro _ q hq
          injection hq with hq
          subst hq
          refine ⟨fun hco => ?_, fun _ => min_le_right _ _⟩
          rcases hco with h | h <;> simp at h
        · intro h
          simp at h
        · intro habs
          simp at habs
    · injection hr with hr
      subst hr
      refine ⟨⟨h0, h90⟩, ?_, ?_, ?_⟩
      · intro _ q hq
        exact ⟨fun hni => absurd ⟨by simp [hq], hni⟩ h1,
          fun hout => absurd hout h2⟩
      · intro h
        simp at h
      · intro _
        rfl
  case Penumbra =>
    simp only [clampHandleAngle] at hr
    split_ifs at hr with h1 h2
    · injection hr with hr
      subst hr
      refine ⟨⟨le_min h0 hc0, le_trans (min_le_left _ _) h90⟩, ?_, ?_, ?_⟩
      · intro h
        simp at h
      · intro _
        refine ⟨fun _ => min_le_right _ _, fun hout => ?_⟩
        rcases h1 with h | h <;> rw [h] at hout <;> simp at hout
      · intro habs
        rcases h1 with h | h <;> rw [h] at habs <;> simp at habs
    · injection hr with hr
      subst hr
      subst h2
      refine ⟨⟨le_min h0 (by linarith), le_trans (min_le_left _ _) h90⟩,
        ?_, ?_, ?_⟩
      · intro h
        simp at h
      · intro _
        refine ⟨fun hco => ?_, fun _ => min_le_right _ _⟩
        rcases hco with h | h <;> simp at h
      · intro habs
        simp at habs
    · injection hr with hr
      subst hr
      refine ⟨⟨h0, h90⟩, ?_, ?_, ?_⟩
      · intro h
        simp at h
      · intro _
        exact ⟨fun hco => absurd hco h1, fun hout => absurd hout h2⟩
      · intro _
        rfl

/-- Witness for C2 at a concrete input: the cone role with an inset
penumbra, candidate 95, original cone 40, original penumbra 10; the clamp
returns 90. -/
theorem C2_clamp_handle_angle_spec_witness :
    clampHandleAngle SpotHandleType.Cone (some PenumbraType.inset)
        95 40 (some 10) = some 90 ∧
    (((0:ℚ) ≤ 90 ∧ (90:ℚ) ≤ 90) ∧
    (SpotHandleType.Cone = SpotHandleType.Cone → ∀ p : ℚ,
        (some 10 : Option ℚ) = some p →
      (((some PenumbraType.inset : Option PenumbraType) = none ∨
          (some PenumbraType.inset : Option PenumbraType) =
            some PenumbraType.inset) → p ≤ 90) ∧
      ((some PenumbraType.inset : Option PenumbraType) =
          some PenumbraType.outset → (90:ℚ) ≤ 90 - p)) ∧
    (SpotHandleType.Cone = SpotHandleType.Penumbra →
      (((some PenumbraType.inset : Option PenumbraType) = none ∨
          (some PenumbraType.inset : Option PenumbraType) =
            some PenumbraType.inset) → (90:ℚ) ≤ 40) ∧
      ((some PenumbraType.inset : Option PenumbraType) =
          some PenumbraType.outset → (90:ℚ) ≤ 90 - 40)) ∧
    ((some PenumbraType.inset : Option PenumbraType) =
        some PenumbraType.absolute → (90:ℚ) = min (max 95 0) 90)) :=
  ⟨by decide,
   C2_clamp_handle_angle_spec SpotHandleType.Cone (some PenumbraType.inset)
     95 40 (some 10) 90 (by norm_num) (by norm_num)
     (by
       intro p hp
       injection hp with hp
       subst hp
       norm_num)
     (by decide)⟩

/-- C3: a spot-light drag move with a non-empty, all-editable snapshot list
applies the same handle-space delta (the clamped candidate minus the
dragged handle start angle) to every snapshot own start angle, re-clamps
each result with that snapshot original coupled angles, converts back to
plug space and writes it to that snapshot plug. -/
theorem C3_spot_drag_applies_shared_delta (ht : SpotHandleType)
    (pt : Option PenumbraType) (mult arcRadius newAngle : ℚ)
    (dragStart : SpotSnapshot) (snaps : List SpotSnapshot)
    (clamped start : ℚ)
    (hne : snaps ≠ [])
    (hen : spotAllInspectionsEnabled ht snaps = true)
    (hcl : clampHandleAngle ht pt newAngle dragStart.origCone
      (dragStart.pen.map Prod.snd) = some clamped)
    (hst : spotDragStartAngle ht dragStart = some start) :
    spotHandleDragMove ht pt mult arcRadius (SpotDragKind.angularDrag newAngle)
        dragStart snaps =
      (true, snaps.mapM (spotSnapshotWrite ht pt mult (clamped - start))) := by
  simp [spotHandleDragMove, hne, hen, hcl, hst]

/-- Witness for C3 at the multi-selection scenario of the claim: two
half-angle spot lights with cone plug angles 20 and 60 (handle angles equal
plug angles since the multiplier is 2), the handle of the last-selected
light (60) dragged up by 5 degrees to 65; both plugs shift by 5, to 25 and
65. -/
theorem C3_spot_drag_applies_shared_delta_witness :
    spotHandleDragMove SpotHandleType.Cone none 2 1
        (SpotDragKind.angularDrag 65)
        { coneEditable := true, origCone := 60, pen := none }
        [ { coneEditable := true, origCone := 20, pen := none },
          { coneEditable := true, origCone := 60, pen := none } ] =
      (true, some [25, 65]) := by
  have h := C3_spot_drag_applies_shared_delta SpotHandleType.Cone none 2 1
    65
    { coneEditable := true, origCone := 60, pen := none }
    [ { coneEditable := true, origCone := 20, pen := none },
      { coneEditable := true, origCone := 60, pen := none } ]
    65 60
    (by simp)
    (by norm_num [spotAllInspectionsEnabled])
    (by
      norm_num [clampHandleAngle]
      intro h
      exact Option.noConfusion h)
    (by norm_num [spotDragStartAngle])
  refine h.trans ?_
  norm_num [List.mapM.loop, spotSnapshotWrite, clampHandleAngle,
    min_def, max_def]
  simp [conePlugAngle]

/-- C4: a width/height drag move with editable inspections computes each
multiplier as (2 * delta) / (nonZero original dimension of the drag-start
snapshot * scale) + 1, clamps it at zero, and writes, for every captured
snapshot, nonZero(original dimension) times the multiplier for each
dimension the handle edits. The aspect-ratio-lock modifier state is
excluded here; C5 covers it. -/
theorem C4_wh_drag_multiplier_formula (hasW hasH : Bool) (mods : Modifiers)
    (dragStart : WHSnapshot) (dx dy sx sy : ℚ) (snaps : List WHSnapshot)
    (hne : snaps ≠ [])
    (hen : whAllInspectionsEnabled hasW hasH snaps = true)
    (hlock : ¬(mods = controlModifier ∧ hasW = true ∧ hasH = true)) :
    whHandleDragMove hasW hasH mods dragStart dx dy sx sy snaps =
      (true, snaps.map fun s =>
        ( if hasW = true ∧ s.widthEditable = true then
            some (nonZero s.originalWidth *
              max (dx * 2 / (nonZero dragStart.originalWidth * sx) + 1) 0)
          else none,
          if hasH = true ∧ s.heightEditable = true then
            some (nonZero s.originalHeight *
              max (dy * 2 / (nonZero dragStart.originalHeight * sy) + 1) 0)
          else none )) := by
  cases hasW <;> cases hasH <;>
    simp_all [whHandleDragMove, hne, hen, hlock]

/-- Witness for C4: a width-only drag on a disk of radius 1 with delta 0.15
and unit scale multiplies by 1.3, writing 1.3 and touching no height. -/
theorem C4_wh_drag_multiplier_formula_witness :
    whHandleDragMove true false noModifiers
      { widthEditable := true, originalWidth := 1,
        heightEditable := true, originalHeight := 1 }
      (3/20) 0 1 1
      [ { widthEditable := true, originalWidth := 1,
          heightEditable := true, originalHeight := 1 } ] =
    (true, [(some (13/10), none)]) := by
  have h := C4_wh_drag_multiplier_formula true false noModifiers
    { widthEditable := true, originalWidth := 1,
      heightEditable := true, originalHeight := 1 }
    (3/20) 0 1 1
    [ { widthEditable := true, originalWidth := 1,
        heightEditable := true, originalHeight := 1 } ]
    (by simp)
    (by norm_num [whAllInspectionsEnabled])
    (by simp [controlModifier, noModifiers])
  refine h.trans ?_
  norm_num [nonZero, max_def]

/-- C5: with the modifier state equal to Control on a corner handle, the
two multipliers are forced equal, the multiplier of the larger original
dimension leading. -/
theorem C5_wh_aspect_ratio_lock (mods : Modifiers) (dragStart : WHSnapshot)
    (dx dy sx sy : ℚ) (snaps : List WHSnapshot)
    (hne : snaps ≠ [])
    (hen : whAllInspectionsEnabled true true snaps = true)
    (hmods : mods = controlModifier) :
    whHandleDragMove true true mods dragStart dx dy sx sy snaps =
      (true, snaps.map fun s =>
        ( if s.widthEditable = true then
            some (nonZero s.originalWidth * max
              (if dragStart.originalWidth > dragStart.originalHeight then
                dx * 2 / (nonZero dragStart.originalWidth * sx) + 1
              else
                dy * 2 / (nonZero dragStart.originalHeight * sy) + 1) 0)
          else none,
          if s.heightEditable = true then
            some (nonZero s.originalHeight * max
              (if dragStart.originalWidth > dragStart.originalHeight then
                dx * 2 / (nonZero dragStart.originalWidth * sx) + 1
              else
                dy * 2 / (nonZero dragStart.originalHeight * sy) + 1) 0)
          else none )) := by
  subst hmods
  simp_all [whHandleDragMove, hne, hen]

/-- Witness for C5 at the scenario of the claim: width 2, height 1, corner
dragged by (+0.5, +0.1) with Control held; the width multiplier 1.5 leads
and the writes are width 3 and height 1.5. -/
theorem C5_wh_aspect_ratio_lock_witness :
    whHandleDragMove true true controlModifier
      { widthEditable := true, originalWidth := 2,
        heightEditable := true, originalHeight := 1 }
      (1/2) (1/10) 1 1
      [ { widthEditable := true, originalWidth := 2,
          heightEditable := true, originalHeight := 1 } ] =
    (true, [(some 3, some (3/2))]) := by
  have h := C5_wh_aspect_ratio_lock controlModifier
    { widthEditable := true, originalWidth := 2,
      heightEditable := true, originalHeight := 1 }
    (1/2) (1/10) 1 1
    [ { widthEditable := true, originalWidth := 2,
        heightEditable := true, originalHeight := 1 } ]
    (by simp)
    (by norm_num [whAllInspectionsEnabled])
    rfl
  refine h.trans ?_
  norm_num [nonZero, max_def]

/-- C7: a drag move with no captured snapshots, or with any snapshot whose
inspection for the dragged parameter is non-editable, consumes the event
and performs no writes (and hence acquires no edit, every write in the
source being preceded by its `acquireEdit` call), for both the spot-light
handle and the width/height handle. -/
theorem C7_non_editable_suppresses_writes :
    (∀ (ht : SpotHandleType) (pt : Option PenumbraType)
      (mult arcRadius : ℚ) (kind : SpotDragKind) (dragStart : SpotSnapshot)
      (snaps : List SpotSnapshot),
      snaps = [] ∨ spotAllInspectionsEnabled ht snaps = false →
      spotHandleDragMove ht pt mult arcRadius kind dragStart snaps =
        (true, some [])) ∧
    (∀ (hasW hasH : Bool) (mods : Modifiers) (dragStart : WHSnapshot)
      (dx dy sx sy : ℚ) (snaps : List WHSnapshot),
      snaps = [] ∨ whAllInspectionsEnabled hasW hasH snaps = false →
      whHandleDragMove hasW hasH mods dragStart dx dy sx sy snaps =
        (true, [])) := by
  constructor
  · intro ht pt mult arcRadius kind dragStart snaps h
    rcases h with h | h <;> simp [spotHandleDragMove, h]
  · intro hasW hasH mods dragStart dx dy sx sy snaps h
    rcases h with h | h <;> simp [whHandleDragMove, h]

/-- Witness for C7: a spot drag over one non-editable cone snapshot and a
width drag over one non-editable width snapshot both consume the event and
write nothing. -/
theorem C7_non_editable_suppresses_writes_witness :
    spotHandleDragMove SpotHandleType.Cone none 1 1
        (SpotDragKind.angularDrag 30)
        { coneEditable := true, origCone := 10, pen := none }
        [ { coneEditable := false, origCone := 10, pen := none } ] =
      (true, some []) ∧
    whHandleDragMove true false controlModifier
        { widthEditable := false, originalWidth := 1,
          heightEditable := true, originalHeight := 1 }
        1 0 1 1
        [ { widthEditable := false, originalWidth := 1,
            heightEditable := true, originalHeight := 1 } ] =
      (true, []) :=
  ⟨ C7_non_editable_suppresses_writes.1 SpotHandleType.Cone none 1 1
      (SpotDragKind.angularDrag 30)
      { coneEditable := true, origCone := 10, pen := none }
      [ { coneEditable := false, origCone := 10, pen := none } ]
      (Or.inr (by norm_num [spotAllInspectionsEnabled])),
    C7_non_editable_suppresses_writes.2 true false controlModifier
      { widthEditable := false, originalWidth := 1,
        heightEditable := true, originalHeight := 1 }
      1 0 1 1
      [ { widthEditable := false, originalWidth := 1,
          heightEditable := true, originalHeight := 1 } ]
      (Or.inr (by norm_num [whAllInspectionsEnabled])) ⟩

/-- C10: a linear spot drag (not looking through the light) whose event ray
misses the sphere of radius `arcRadius` centred at the gadget origin
(negative discriminant) consumes the event and writes no plug value. -/
theorem C10_sphere_miss_no_writes (ht : SpotHandleType)
    (pt : Option PenumbraType) (mult arcRadius : ℚ) (pos dir : Vec3)
    (rootAngle : ℚ) (dragStart : SpotSnapshot) (snaps : List SpotSnapshot)
    (hne : snaps ≠ [])
    (hen : spotAllInspectionsEnabled ht snaps = true)
    (hdisc : sphereSpokeDiscriminant pos dir arcRadius < 0) :
    spotHandleDragMove ht pt mult arcRadius
        (SpotDragKind.linearDrag pos dir rootAngle) dragStart snaps =
      (true, some []) := by
  simp [spotHandleDragMove, hne, hen, hdisc]

/-- Witness for C10: a ray through (5, 0, 0) along -Z misses the unit
sphere, so a drag over one editable snapshot writes nothing. -/
theorem C10_sphere_miss_no_writes_witness :
    spotHandleDragMove SpotHandleType.Cone none 1 1
        (SpotDragKind.linearDrag { x := 5, y := 0, z := 0 }
          { x := 0, y := 0, z := -1 } 45)
        { coneEditable := true, origCone := 10, pen := none }
        [ { coneEditable := true, origCone := 10, pen := none } ] =
      (true, some []) :=
  C10_sphere_miss_no_writes SpotHandleType.Cone none 1 1
    { x := 5, y := 0, z := 0 } { x := 0, y := 0, z := -1 } 45
    { coneEditable := true, origCone := 10, pen := none }
    [ { coneEditable := true, origCone := 10, pen := none } ]
    (by simp)
    (by norm_num [spotAllInspectionsEnabled])
    (by norm_num [sphereSpokeDiscriminant, dot])

/-- C6 counterexample: with a drag in progress, a change of a non-ui
context variable (such as the frame) emits `selectionChanged`, and a
context change carrying a new selection changes the value `selection()`
returns; the claim says neither can happen during a drag.
`LightTool::contextChanged` has no `m_dragging` guard - only
`LightTool::plugDirtied` has one. -/
theorem C6_counterexample :
    (lightToolProcessEvent draggingState
      (LightToolEvent.contextChanged frameVar 1)).2 = true ∧
    draggingState.dragging = true ∧
    lightToolSelection
      (lightToolProcessEvent draggingState
        (LightToolEvent.contextChanged frameVar 1)).1 ≠
      lightToolSelection draggingState := by
  refine ⟨by decide, rfl, by decide⟩

/-- C6 amended: while the dragging flag is set, any sequence of plug-dirtied
events emits no `selectionChanged` and leaves `selection()` unchanged;
context-changed events, however, are not guarded by the dragging flag: any
context change passing the name filter emits `selectionChanged` even during
a drag. -/
theorem C6_amended_drag_freeze (s : LightToolState)
    (evts : List LightToolEvent)
    (hd : s.dragging = true)
    (hp : ∀ e ∈ evts, ∃ p, e = LightToolEvent.plugDirtied p) :
    (lightToolProcessEvents s evts).2 = 0 ∧
    lightToolSelection (lightToolProcessEvents s evts).1 =
      lightToolSelection s ∧
    ∀ (v : ContextVar) (newSel : ℕ),
      contextChangeTriggers v = true →
      (lightToolProcessEvent s
        (LightToolEvent.contextChanged v newSel)).2 = true := by
  have hstep : ∀ (t : LightToolState) (p : LightToolPlug),
      (lightToolPlugDirtied t p).1.dragging = t.dragging ∧
      (lightToolPlugDirtied t p).1.contextSelection = t.contextSelection ∧
      (t.dragging = true → (lightToolPlugDirtied t p).2 = false) := by
    intro t p
    simp only [lightToolPlugDirtied]
    refine ⟨?_, ?_, ?_⟩ <;> split_ifs <;> simp_all
  refine ⟨?_, ?_, ?_⟩
  · induction evts generalizing s with
    | nil => simp [lightToolProcessEvents]
    | cons e rest ih =>
      obtain ⟨p, rfl⟩ := hp e (by simp)
      have h1 := hstep s p
      have hrest := ih (lightToolPlugDirtied s p).1 (h1.1.trans hd)
        (fun e he => hp e (by simp [he]))
      simp only [lightToolProcessEvents, lightToolProcessEvent]
      simp [h1.2.2 hd, hrest]
  · induction evts generalizing s with
    | nil => simp [lightToolProcessEvents]
    | cons e rest ih =>
      obtain ⟨p, rfl⟩ := hp e (by simp)
      have h1 := hstep s p
      have hrest := ih (lightToolPlugDirtied s p).1 (h1.1.trans hd)
        (fun e he => hp e (by simp [he]))
      simp only [lightToolProcessEvents, lightToolProcessEvent,
        lightToolSelection] at hrest ⊢
      exact hrest.trans h1.2.1
  · intro v newSel htr
    simp [lightToolProcessEvent, lightToolContextChanged, htr]

/-- Witness for C6 amended: during a drag, dirtying the active plug and the
scene attributes plug emits nothing and leaves the selection value 0, while
a passing context change emits. -/
theorem C6_amended_drag_freeze_witness :
    (lightToolProcessEvents draggingState
      [ LightToolEvent.plugDirtied LightToolPlug.active,
        LightToolEvent.plugDirtied LightToolPlug.sceneAttributes ]).2 = 0 ∧
    lightToolSelection
        (lightToolProcessEvents draggingState
          [ LightToolEvent.plugDirtied LightToolPlug.active,
            LightToolEvent.plugDirtied LightToolPlug.sceneAttributes ]).1 =
      lightToolSelection draggingState ∧
    ∀ (v : ContextVar) (newSel : ℕ),
      contextChangeTriggers v = true →
      (lightToolProcessEvent draggingState
        (LightToolEvent.contextChanged v newSel)).2 = true :=
  C6_amended_drag_freeze draggingState
    [ LightToolEvent.plugDirtied LightToolPlug.active,
      LightToolEvent.plugDirtied LightToolPlug.sceneAttributes ]
    rfl
    (by
      intro e he
      simp at he
      rcases he with he | he <;> exact ⟨_, he⟩)

/-- `selectionEditable` agrees with the claim wording. -/
theorem selectionEditable_iff_spec (sel : List SelectionItem) :
    selectionEditable sel = true ↔ SelectionEditableSpec sel := by
  unfold selectionEditable SelectionEditableSpec
  rcases sel with _ | ⟨i, rest⟩
  · simp
  · simp only [List.isEmpty_cons, if_neg Bool.false_ne_true, List.all_eq_true]
    constructor
    · intro h
      refine ⟨by simp, ?_⟩
      intro j hj
      have hji := h j hj
      rcases j with _ | e
      · simp at hji
      · exact ⟨e, rfl, by simpa using hji⟩
    · intro h j hj
      obtain ⟨e, rfl, rfl⟩ := h.2 j hj
      simp

/-- C8: `handleTransform` raises exactly when the selection is not editable
in the sense of the claim (non-empty, all inspections non-null, all
editable), and returns the handle transform otherwise. -/
theorem C8_handle_transform_raises_iff {α : Type} (sel : List SelectionItem)
    (t : α) :
    ((∃ msg, handleTransform sel t = Except.error msg) ↔
      ¬ SelectionEditableSpec sel) ∧
    (SelectionEditableSpec sel → handleTransform sel t = Except.ok t) := by
  have hiff := selectionEditable_iff_spec sel
  constructor
  · constructor
    · intro ⟨msg, hmsg⟩ hspec
      have : selectionEditable sel = true := hiff.mpr hspec
      simp [handleTransform, this] at hmsg
    · intro hspec
      have : selectionEditable sel = false := by
        rcases h : selectionEditable sel with _ | _
        · rfl
        · exact absurd (hiff.mp h) hspec
      exact ⟨"Selection not editable", by simp [handleTransform, this]⟩
  · intro hspec
    have : selectionEditable sel = true := hiff.mpr hspec
    simp [handleTransform, this]

/-- Witness for C8: a single non-editable inspection makes
`handleTransform` raise; a single editable one makes it return the
transform. -/
theorem C8_handle_transform_raises_iff_witness :
    (∃ msg, handleTransform [some false] (0:ℕ) = Except.error msg) ∧
    handleTransform [some true] (1:ℕ) = Except.ok 1 :=
  ⟨ (C8_handle_transform_raises_iff [some false] (0:ℕ)).1.mpr
      (by
        rintro ⟨hne, hall⟩
        obtain ⟨e, he, hetrue⟩ := hall (some false) (by simp)
        injection he with he
        rw [← he] at hetrue
        exact Bool.false_ne_true hetrue),
    (C8_handle_transform_raises_iff [some true] (1:ℕ)).2
      (by
        refine ⟨by simp, ?_⟩
        intro i hi
        simp only [List.mem_singleton] at hi
        exact ⟨true, hi, rfl⟩) ⟩

/-- C9 counterexample: with four warning tips the text lists all four tips
and is not the three-tip text with an "and 1 more" suffix the claim
describes. -/
theorem C9_counterexample :
    warningInfoText ["a", "b", "c", "d"] = "a\nb\nc\nd" ∧
    warningInfoText ["a", "b", "c", "d"] ≠ "a\nb\nc\nand 1 more" := by
  constructor <;> decide

/-- C9 amended: the tooltip lists the first `g_warningTipCount` (3)
non-editable reasons; with exactly 4 reasons the fourth is printed in full
instead of a suffix; with more than 4 an "and K more" suffix follows, with
K the total minus 3. -/
theorem C9_amended_warning_text (tips : List String) :
    (tips.length ≤ g_warningTipCount →
      warningInfoText tips = joinTips tips) ∧
    (tips.length = g_warningTipCount + 1 →
      warningInfoText tips = joinTips tips) ∧
    (tips.length > g_warningTipCount + 1 →
      warningInfoText tips =
        joinTips (tips.take g_warningTipCount) ++ "\n" ++ "and " ++
          toString (tips.length - g_warningTipCount) ++ " more") := by
  refine ⟨?_, ?_, ?_⟩
  · intro h
    have h4 : ¬ tips.length = g_warningTipCount + 1 := by omega
    have h5 : ¬ tips.length > g_warningTipCount + 1 := by omega
    have htake : tips.take g_warningTipCount = tips :=
      List.take_of_length_le h
    simp [warningInfoText, h4, h5, htake]
  · intro h
    have h5 : ¬ tips.length > g_warningTipCount + 1 := by omega
    rcases tips with _ | ⟨a, _ | ⟨b, _ | ⟨c, _ | ⟨d, rest⟩⟩⟩⟩ <;>
      simp [g_warningTipCount] at h
    subst h
    simp [warningInfoText, g_warningTipCount, joinTips,
      String.append_assoc]
  · intro h
    have h4 : ¬ tips.length = g_warningTipCount + 1 := by omega
    simp [warningInfoText, h4, h]

/-- Witness for C9 amended at five tips: the text is the first three tips
and an "and 2 more" line. -/
theorem C9_amended_warning_text_witness :
    warningInfoText ["a", "b", "c", "d", "e"] = "a\nb\nc\nand 2 more" := by
  have h := (C9_amended_warning_text ["a", "b", "c", "d", "e"]).2.2
    (by simp [g_warningTipCount])
  refine h.trans ?_
  decide

end LightToolSpec
